import Mathlib

/-!
# Verification of the ECB exchange-rate ETL pipeline

A shallow embedding in Lean 4 of `etl_ecb_exchange_rates.py`, together with
theorems settling the specification claims about it.

Modelling conventions:
* byte streams (CSV contents, decompressed zip members) are modelled as `String`;
* Python `float` values are modelled as `PyFloat`: an exact rational or NaN
  (every value actually manipulated by the program is a short decimal, so
  rationals are a faithful model at the precision the claims use);
* Python exceptions (`ValueError`, `IndexError`, `KeyError`) are modelled by
  `Except String`, the payload being the exception message;
* a zip archive is modelled as the ordered list of its members, each member
  carrying its name and its decompressed bytes;
* the output file is modelled as `Option String` (content at the output path).
-/

/-- Equality of modelled computation results is decidable (used to evaluate
the embedding on concrete inputs). -/
instance {ε α : Type} [DecidableEq ε] [DecidableEq α] : DecidableEq (Except ε α) := fun x y =>
  match x, y with
  | Except.error a, Except.error b =>
    if h : a = b then isTrue (by rw [h]) else isFalse (by simp [h])
  | Except.error _, Except.ok _ => isFalse (by simp)
  | Except.ok _, Except.error _ => isFalse (by simp)
  | Except.ok a, Except.ok b =>
    if h : a = b then isTrue (by rw [h]) else isFalse (by simp [h])

/-- Python floats as the program uses them: an exact rational number, or NaN
(which arises from `float("nan")`-like paths such as the mean of an empty
series and from empty CSV cells, which pandas parses as NaN). -/
inductive PyFloat where
  | num (q : ℚ)
  | nan
  deriving DecidableEq, Repr

/-- The whitespace characters stripped by Python `str.strip()` (ASCII part). -/
def isPySpace (c : Char) : Bool :=
  c = ' ' || c = '\t' || c = '\n' || c = '\r' || c = '\x0b' || c = '\x0c'

/-- Drop the longest suffix of elements satisfying `p` (mirror of
`List.dropWhile` at the other end). -/
def dropTrailing (p : α → Bool) : List α → List α
  | [] => []
  | a :: l =>
    if (dropTrailing p l).isEmpty && p a then [] else a :: dropTrailing p l

/-- Python `str.strip()` on a character list: drop leading and trailing
whitespace. -/
def stripChars (cs : List Char) : List Char :=
  dropTrailing isPySpace (cs.dropWhile isPySpace)

/-- Python `str.strip()` (as also applied cell-wise by pandas
`Series.str.strip()`). -/
def pyStrip (s : String) : String :=
  String.mk (stripChars s.data)

/-- Numeric value of a list of decimal digit characters. -/
def digitsToNat (l : List Char) : ℕ :=
  l.foldl (fun a c => 10 * a + (c.toNat - 48)) 0

/-- Parse an unsigned decimal literal (digits with at most one dot, at least
one digit overall), as accepted by Python `float` for the values this program
sees. -/
def parseUnsigned (cs : List Char) : Option ℚ :=
  match cs.splitOn '.' with
  | [ip] =>
    if ip ≠ [] && ip.all Char.isDigit then some (digitsToNat ip : ℚ) else none
  | [ip, fp] =>
    if (ip ≠ [] || fp ≠ []) && ip.all Char.isDigit && fp.all Char.isDigit then
      some ((digitsToNat ip : ℚ) + (digitsToNat fp : ℚ) / ((10 : ℚ) ^ fp.length))
    else none
  | _ => none

/-- The numeric coercion shared by Python `float(str)` and
`pd.to_numeric(..., errors="coerce")` on a cell: optional sign around an
unsigned decimal, surrounding whitespace ignored; `none` when the text does
not denote a (finite decimal) number.  Exotic forms (exponents, `inf`,
underscores) are outside the program's data and are not modelled. -/
def pyFloatOfString (s : String) : Option ℚ :=
  match (pyStrip s).data with
  | '+' :: rest => parseUnsigned rest
  | '-' :: rest => (parseUnsigned rest).map Neg.neg
  | cs => parseUnsigned cs

/-- Round a rational to an integer, ties to even — the rounding used by
Python `format(x, ".6f")` on the scaled value. -/
def roundHalfEvenScaled (q : ℚ) : ℤ :=
  let n : ℤ := q.num
  let d : ℤ := (q.den : ℤ)
  let f : ℤ := Int.fdiv n d
  let r : ℤ := n - f * d
  if 2 * r < d then f
  else if 2 * r > d then f + 1
  else if f % 2 = 0 then f else f + 1

/-- The decimal digit character for `n % 10`. -/
def digitChar10 (n : ℕ) : Char :=
  Char.ofNat (48 + n % 10)

/-- The six zero-padded decimal digits of `n % 10^6`, most significant first. -/
def frac6 (n : ℕ) : List Char :=
  [digitChar10 (n / 100000), digitChar10 (n / 10000), digitChar10 (n / 1000),
   digitChar10 (n / 100), digitChar10 (n / 10), digitChar10 n]

/-- Python `f"{x:.6f}"`: fixed-point rendering with exactly six digits after
the decimal point (NaN renders as `nan`). -/
def formatFixed6 : PyFloat → String
  | PyFloat.nan => "nan"
  | PyFloat.num q =>
    let n : ℤ := roundHalfEvenScaled (q * 1000000)
    let m : ℕ := n.natAbs
    let intPart : String := (if n < 0 then "-" else "") ++ toString (m / 1000000)
    intPart ++ "." ++ String.mk (frac6 (m % 1000000))

/-- A parsed table (`pandas.DataFrame` as this program uses it): ordered
column labels and the data rows in file order.  Cells stay as the raw text of
the CSV field; the numeric coercion the program applies per cell
(`float(...)`, `pd.to_numeric`) is modelled at the use sites.  An absent field
behaves like the empty field (pandas gives NaN to both). -/
structure DataFrame where
  columns : List String
  rows : List (List String)
  deriving DecidableEq, Repr

/-- Position of a column label (`cur in df.columns` / `df[cur]`): index of the
first matching label. -/
def DataFrame.colIndex (df : DataFrame) (c : String) : Option ℕ :=
  df.columns.findIdx? (fun x => x == c)

/-- All cells of the column at index `i`, in row order (`hist_df[cur]`). -/
def DataFrame.colStrings (df : DataFrame) (i : ℕ) : List String :=
  df.rows.map (fun r => r.getD i "")

/-- Lines of a CSV byte stream as pandas sees them: split at newlines, blank
lines skipped (`skip_blank_lines` default, and a trailing newline yields no
row). -/
def csvLines (csv : String) : List String :=
  (csv.splitOn "\n").filter (fun l => !(l == ""))

/-- `pd.read_csv(BytesIO(csv_bytes))`: first line holds the column labels,
each further line one row; fields are comma-separated. -/
def read_csv (csv : String) : DataFrame :=
  match csvLines csv with
  | [] => { columns := [], rows := [] }
  | header :: dataLines =>
    { columns := header.splitOn ","
      rows := dataLines.map (fun l => l.splitOn ",") }

/-- `df.columns = df.columns.str.strip()`: normalize every column label by
stripping surrounding whitespace. -/
def stripColumns (df : DataFrame) : DataFrame :=
  { df with columns := df.columns.map pyStrip }

/-- `csv_bytes_to_dataframe` from the source: parse the CSV bytes, then strip
the column labels. -/
def csv_bytes_to_dataframe (csv_bytes : String) : DataFrame :=
  stripColumns (read_csv csv_bytes)

/-- One member of a zip archive: its filename and its decompressed bytes. -/
structure ZipEntry where
  name : String
  content : String
  deriving DecidableEq, Repr

/-- Python `str.lower()` (ASCII case folding, as zip member names use). -/
def pyLower (s : String) : String :=
  String.mk (s.data.map Char.toLower)

/-- Does the (lowercased) member name end in the tabular-data extension
(`n.lower().endswith(".csv")`)? -/
def isCsvName (n : String) : Bool :=
  List.isSuffixOf ".csv".data (pyLower n).data

/-- Python renders a list of names in an f-string as a bracketed
comma-separated list; quoting of the individual items is immaterial to the
claims and omitted. -/
def renderNameList (names : List String) : String :=
  "[" ++ String.intercalate ", " names ++ "]"

/-- Message of the `ValueError` raised when no member name matches
(`f"no csv files {zf.namelist()}"`). -/
def noCsvMsg (names : List String) : String :=
  "no csv files " ++ renderNameList names

/-- `read_first_csv_from_zip` from the source: list the member names, keep
those ending in `.csv` (case-insensitively), fail if there are none, else
read the member named by the first match (`zf.read(csv_names[0])`).
`zipfile` resolves a name through its `NameToInfo` index, which is built by
scanning the members in order with later entries overwriting earlier ones,
so reading a name yields the *last* member carrying it (modelled as the
first match over the reversed listing). -/
def read_first_csv_from_zip (zf : List ZipEntry) : Except String String :=
  let names := zf.map ZipEntry.name
  let csv_names := names.filter isCsvName
  match csv_names with
  | [] => Except.error (noCsvMsg names)
  | n :: _ =>
    match zf.reverse.find? (fun e => e.name == n) with
    | some e => Except.ok e.content
    | none => Except.error ("KeyError: " ++ n)

/-- Python `dict` assignment `d[k] = v` on an insertion-ordered dictionary
modelled as an association list: update in place if the key exists, else
append. -/
def dictInsert (d : List (String × PyFloat)) (k : String) (v : PyFloat) :
    List (String × PyFloat) :=
  if d.any (fun p => p.1 == k) then
    d.map (fun p => if p.1 == k then (k, v) else p)
  else d ++ [(k, v)]

/-- Python `dict` lookup `d[k]` (`none` models a `KeyError`). -/
def dictLookup (d : List (String × PyFloat)) (k : String) : Option PyFloat :=
  (d.find? (fun p => p.1 == k)).map Prod.snd

/-- The per-currency loop shared by the two extractors: process the requested
codes in order, raising on the first failure, otherwise building up the
result dictionary. -/
def buildRates (step : String → Except String PyFloat) :
    List String → List (String × PyFloat) → Except String (List (String × PyFloat))
  | [], d => Except.ok d
  | cur :: rest, d =>
    match step cur with
    | Except.error e => Except.error e
    | Except.ok v => buildRates step rest (dictInsert d cur v)

/-- Message of the `IndexError` raised by `daily_df.iloc[-1]` on a table with
no rows. -/
def indexErrMsg : String :=
  "single positional indexer is out-of-bounds"

/-- Message of the `ValueError` raised in `extract_latest_rates` when a
requested code is not a column label
(`f"{cur} not in the ecb column: {list(daily_df.columns)}"`). -/
def missingLatestMsg (cur : String) (cols : List String) : String :=
  cur ++ " not in the ecb column: " ++ renderNameList cols

/-- Message of the `ValueError` raised in `extract_average_history_rates`
when a requested code is not a column label. -/
def missingHistMsg (cur : String) (cols : List String) : String :=
  cur ++ " not in the ecb historical columns: " ++ renderNameList cols

/-- Message of the `ValueError` raised by Python `float(cell)` on text that
does not denote a number. -/
def floatConvMsg (cell : String) : String :=
  "could not convert string to float: " ++ cell

/-- `float(daily_last_row[cur])` on the raw text of a cell: an empty field is
NaN after parsing (pandas), and `float(nan)` is NaN; otherwise the text must
denote a number, else a `ValueError` is raised. -/
def coerceCellToFloat (cell : String) : Except String PyFloat :=
  if cell = "" then Except.ok PyFloat.nan
  else
    match pyFloatOfString cell with
    | some q => Except.ok (PyFloat.num q)
    | none => Except.error (floatConvMsg cell)

/-- The body of the `extract_latest_rates` loop for one code: membership
check, then coercion of the last row's cell for that column. -/
def latestStep (daily_df : DataFrame) (daily_last_row : List String)
    (cur : String) : Except String PyFloat :=
  match daily_df.colIndex cur with
  | none => Except.error (missingLatestMsg cur daily_df.columns)
  | some i => coerceCellToFloat (daily_last_row.getD i "")

/-- `extract_latest_rates` from the source: take the table's last row
(`iloc[-1]`, an `IndexError` if there is none), then for each requested code
in order check membership and coerce that row's cell to float. -/
def extract_latest_rates (daily_df : DataFrame) (currencies : List String) :
    Except String (List (String × PyFloat)) :=
  match daily_df.rows.getLast? with
  | none => Except.error indexErrMsg
  | some daily_last_row =>
    buildRates (latestStep daily_df daily_last_row) currencies []

/-- `series.dropna().mean()` then `float(...)`: the arithmetic mean of the
present numeric values, NaN when there are none. -/
def pyMean (l : List ℚ) : PyFloat :=
  if l.isEmpty then PyFloat.nan else PyFloat.num (l.sum / (l.length : ℚ))

/-- The body of the `extract_average_history_rates` loop for one code:
membership check, then `pd.to_numeric(hist_df[cur], errors="coerce")` keeps
the cells that denote numbers (the rest become NaN), `dropna` removes the
NaNs, and `mean` averages what is left. -/
def histStep (hist_df : DataFrame) (cur : String) : Except String PyFloat :=
  match hist_df.colIndex cur with
  | none => Except.error (missingHistMsg cur hist_df.columns)
  | some i => Except.ok (pyMean ((hist_df.colStrings i).filterMap pyFloatOfString))

/-- `extract_average_history_rates` from the source. -/
def extract_average_history_rates (hist_df : DataFrame) (currencies : List String) :
    Except String (List (String × PyFloat)) :=
  buildRates (histStep hist_df) currencies []

/-- The immutable output record (`@dataclass(frozen=True)`). -/
structure ExchangeRow where
  currency_code : String
  rate : PyFloat
  mean_historical_rate : PyFloat
  deriving DecidableEq, Repr

/-- `build_output_rows` from the source: one `ExchangeRow` per requested
code, in the order of `currencies`, pairing the two dictionary lookups (a
missing key is a `KeyError`). -/
def build_output_rows (latest_rates historical_means : List (String × PyFloat)) :
    List String → Except String (List ExchangeRow)
  | [] => Except.ok []
  | cur :: rest =>
    match dictLookup latest_rates cur with
    | none => Except.error ("KeyError: " ++ cur)
    | some r =>
      match dictLookup historical_means cur with
      | none => Except.error ("KeyError: " ++ cur)
      | some m =>
        match build_output_rows latest_rates historical_means rest with
        | Except.error e => Except.error e
        | Except.ok rows =>
          Except.ok ({ currency_code := cur, rate := r, mean_historical_rate := m } :: rows)

/-- The cells of one rendered table line, in source order: the currency code
and the two `.6f`-formatted numeric fields. -/
def markdownCells (r : ExchangeRow) : List String :=
  [r.currency_code, formatFixed6 r.rate, formatFixed6 r.mean_historical_rate]

/-- One pipe-table line. -/
def renderRow (cells : List String) : String :=
  "| " ++ String.intercalate " | " cells ++ " |"

/-- The header labels of the output table, in source order. -/
def outputHeaders : List String :=
  ["Currency Code", "Rate", "Mean Historical Rate"]

/-- `output_df.to_markdown(index=False)`, modelled from the spec and the
pandas documentation as a pipe table: a header line with the three column
labels, a separator line, then one line per row with the cells rendered
verbatim (column-width padding is immaterial to the claims and omitted). -/
def to_markdown (rows : List ExchangeRow) : String :=
  String.intercalate "\n"
    (renderRow outputHeaders ::
     renderRow (outputHeaders.map (fun _ => "---")) ::
     rows.map (fun r => renderRow (markdownCells r)))

/-- `write_markdown_table` from the source: build the output frame, format
both numeric columns with `"{x:.6f}"`, and write the rendered table plus a
trailing newline to the output path, replacing whatever was there (mode
`"w"`).  The file is modelled by its content; on an empty row list the
column assignment `output_df["Rate"] = ...` raises a `KeyError` since
`pd.DataFrame([])` has no columns. -/
def write_markdown_table (rows : List ExchangeRow) (_oldFile : Option String) :
    Except String (Option String) :=
  if rows.isEmpty then Except.error "KeyError: Rate"
  else Except.ok (some (to_markdown rows ++ "\n"))

/-- The dataflow of `main` after the two downloads and zip extractions:
parse both tables, extract the latest rates and the historical means, and
join them into output rows. -/
def run_pipeline (dailyCsv histCsv : String) (currencies : List String) :
    Except String (List ExchangeRow) :=
  match extract_latest_rates (csv_bytes_to_dataframe dailyCsv) currencies with
  | Except.error e => Except.error e
  | Except.ok latest =>
    match extract_average_history_rates (csv_bytes_to_dataframe histCsv) currencies with
    | Except.error e => Except.error e
    | Except.ok means => build_output_rows latest means currencies

example : formatFixed6 (PyFloat.num (11 / 10)) = "1.100000" := by with_unfolding_all decide
example : formatFixed6 (PyFloat.num (6 / 5)) = "1.200000" := by with_unfolding_all decide
example : formatFixed6 (PyFloat.num 2) = "2.000000" := by with_unfolding_all decide
example : pyFloatOfString "1.2" = some (6 / 5) := by with_unfolding_all decide
example : pyFloatOfString "" = none := by with_unfolding_all decide
example : pyFloatOfString "abc" = none := by with_unfolding_all decide
example : pyFloatOfString "-3.5" = some (-7 / 2) := by with_unfolding_all decide

/-- A rendered numeric field with exactly six digits after the decimal
point: the string splits as some prefix, a dot, then six decimal digit
characters. -/
def hasSixDecimals (s : String) : Prop :=
  ∃ a l, s = a ++ "." ++ String.mk l ∧ l.length = 6 ∧ l.all Char.isDigit = true

/-! ## Dictionary and loop lemmas -/

theorem dictLookup_insert_self (d : List (String × PyFloat)) (k : String) (v : PyFloat) :
    dictLookup (dictInsert d k v) k = some v := by
  unfold dictInsert dictLookup
  by_cases h : d.any (fun p => p.1 == k)
  · simp only [h, if_true, List.find?_map]
    have hpred : ((fun p : String × PyFloat => p.1 == k) ∘ fun p => if p.1 == k then (k, v) else p)
        = fun p : String × PyFloat => p.1 == k := by
      funext q
      by_cases hq : q.1 = k <;> simp [hq]
    rw [hpred]
    obtain ⟨q, hq, hqk⟩ := List.any_eq_true.mp h
    cases hfind : List.find? (fun p : String × PyFloat => p.1 == k) d with
    | none => exact absurd hqk (List.find?_eq_none.mp hfind q hq)
    | some q0 =>
      have hq0 := List.find?_some hfind
      simp only [beq_iff_eq] at hq0
      simp [hq0]
  · simp only [h, if_false, List.find?_append]
    have hnone : List.find? (fun p : String × PyFloat => p.1 == k) d = none := by
      rw [List.find?_eq_none]
      intro x hx hpx
      exact h (List.any_eq_true.mpr ⟨x, hx, hpx⟩)
    simp [hnone]

theorem dictLookup_insert_other (d : List (String × PyFloat)) (k k' : String) (v : PyFloat)
    (hne : k' ≠ k) :
    dictLookup (dictInsert d k' v) k = dictLookup d k := by
  unfold dictInsert dictLookup
  by_cases h : d.any (fun p => p.1 == k')
  · simp only [h, if_true, List.find?_map]
    have hpred : ((fun p : String × PyFloat => p.1 == k) ∘ fun p => if p.1 == k' then (k', v) else p)
        = fun p : String × PyFloat => p.1 == k := by
      funext q
      by_cases hq : q.1 = k' <;> simp [hq, hne]
    rw [hpred]
    cases hfind : List.find? (fun p : String × PyFloat => p.1 == k) d with
    | none => simp
    | some q0 =>
      have hq0 := List.find?_some hfind
      simp only [beq_iff_eq] at hq0
      have hq0k : ¬ q0.1 = k' := by
        intro hc
        exact hne (hc ▸ hq0)
      simp [hq0k]
  · simp only [h, if_false, List.find?_append]
    have hsingle : List.find? (fun p : String × PyFloat => p.1 == k) [(k', v)] = none := by
      simp [hne]
    simp [hsingle]

theorem buildRates_lookup_of_not_mem (step : String → Except String PyFloat)
    (cs : List String) (d r : List (String × PyFloat))
    (h : buildRates step cs d = Except.ok r) (k : String) (hk : k ∉ cs) :
    dictLookup r k = dictLookup d k := by
  induction cs generalizing d with
  | nil =>
    simp only [buildRates] at h
    cases h
    rfl
  | cons cur rest ih =>
    simp only [buildRates] at h
    cases hstep : step cur with
    | error e => rw [hstep] at h; cases h
    | ok v =>
      rw [hstep] at h
      have hkr : k ∉ rest := fun hmem => hk (List.mem_cons_of_mem _ hmem)
      have hkc : k ≠ cur := fun hc => hk (hc ▸ List.mem_cons_self _ _)
      rw [ih _ h hkr]
      exact dictLookup_insert_other d k cur v (Ne.symm hkc)

theorem buildRates_lookup_of_mem (step : String → Except String PyFloat)
    (cs : List String) (d r : List (String × PyFloat))
    (h : buildRates step cs d = Except.ok r) (cur : String) (hcur : cur ∈ cs) :
    ∃ v, step cur = Except.ok v ∧ dictLookup r cur = some v := by
  induction cs generalizing d with
  | nil => cases hcur
  | cons c rest ih =>
    simp only [buildRates] at h
    cases hstep : step c with
    | error e => rw [hstep] at h; cases h
    | ok v =>
      rw [hstep] at h
      rcases List.mem_cons.mp hcur with hc | hrest
      · subst hc
        by_cases hmem : cur ∈ rest
        · exact ih _ h hmem
        · refine ⟨v, hstep, ?_⟩
          rw [buildRates_lookup_of_not_mem step rest _ r h cur hmem]
          exact dictLookup_insert_self d cur v
      · exact ih _ h hrest

theorem buildRates_total (step : String → Except String PyFloat)
    (cs : List String) (d : List (String × PyFloat))
    (h : ∀ c ∈ cs, ∃ v, step c = Except.ok v) :
    ∃ r, buildRates step cs d = Except.ok r := by
  induction cs generalizing d with
  | nil => exact ⟨d, rfl⟩
  | cons c rest ih =>
    obtain ⟨v, hv⟩ := h c (List.mem_cons_self _ _)
    obtain ⟨r, hr⟩ := ih (dictInsert d c v) (fun c hc => h c (List.mem_cons_of_mem _ hc))
    exact ⟨r, by simp only [buildRates, hv]; exact hr⟩

theorem buildRates_congr (step1 step2 : String → Except String PyFloat)
    (cs : List String) (d : List (String × PyFloat))
    (h : ∀ c ∈ cs, step1 c = step2 c) :
    buildRates step1 cs d = buildRates step2 cs d := by
  induction cs generalizing d with
  | nil => rfl
  | cons c rest ih =>
    simp only [buildRates, h c (List.mem_cons_self _ _)]
    cases step2 c with
    | error e => rfl
    | ok v => exact ih _ (fun c hc => h c (List.mem_cons_of_mem _ hc))

/-! ## Whitespace stripping is idempotent -/

theorem dropTrailing_idem (p : α → Bool) (l : List α) :
    dropTrailing p (dropTrailing p l) = dropTrailing p l := by
  induction l with
  | nil => rfl
  | cons a t ih =>
    by_cases h : (dropTrailing p t).isEmpty && p a
    · simp [dropTrailing, h]
    · simp [dropTrailing, h, ih]

theorem dropTrailing_cons_head (p : α → Bool) (l : List α) (a : α) (t : List α)
    (h : dropTrailing p l = a :: t) : ∃ t0, l = a :: t0 := by
  cases l with
  | nil => cases h
  | cons b u =>
    simp only [dropTrailing] at h
    by_cases hc : (dropTrailing p u).isEmpty && p b
    · rw [if_pos hc] at h; cases h
    · rw [if_neg hc] at h
      injection h with h1 h2
      exact ⟨u, by rw [h1]⟩

theorem dropWhile_cons_head_false (p : α → Bool) (l : List α) (a : α) (t : List α)
    (h : l.dropWhile p = a :: t) : p a = false := by
  induction l with
  | nil => cases h
  | cons b u ih =>
    by_cases hb : p b
    · rw [List.dropWhile_cons, if_pos hb] at h; exact ih h
    · rw [List.dropWhile_cons, if_neg hb] at h
      injection h with h1 h2
      rw [← h1]
      exact Bool.eq_false_iff.mpr hb

theorem stripChars_idem (cs : List Char) : stripChars (stripChars cs) = stripChars cs := by
  unfold stripChars
  have h1 : (dropTrailing isPySpace (cs.dropWhile isPySpace)).dropWhile isPySpace
      = dropTrailing isPySpace (cs.dropWhile isPySpace) := by
    cases hw : dropTrailing isPySpace (cs.dropWhile isPySpace) with
    | nil => rfl
    | cons a t =>
      obtain ⟨t0, ht0⟩ := dropTrailing_cons_head _ _ _ _ hw
      have ha : isPySpace a = false := dropWhile_cons_head_false _ _ _ _ ht0
      simp [List.dropWhile_cons, ha]
  rw [h1, dropTrailing_idem]

theorem pyStrip_idem (s : String) : pyStrip (pyStrip s) = pyStrip s := by
  unfold pyStrip
  rw [show (String.mk (stripChars s.data)).data = stripChars s.data from rfl, stripChars_idem]

theorem stripColumns_idem (df : DataFrame) : stripColumns (stripColumns df) = stripColumns df := by
  cases df with
  | mk cols rws =>
    simp only [stripColumns, List.map_map]
    congr 1
    exact List.map_congr_left (fun a _ => pyStrip_idem a)

/-! ## Archive extraction: first matching member -/

theorem find?_eq_head_filter (p : α → Bool) (l : List α) :
    l.find? p = (l.filter p).head? := by
  induction l with
  | nil => rfl
  | cons a t ih =>
    by_cases h : p a
    · rw [List.find?_cons_of_pos _ h, List.filter_cons_of_pos h]
      rfl
    · rw [List.find?_cons_of_neg _ h, List.filter_cons_of_neg h, ih]

/-- `read_first_csv_from_zip` characterized: the archive is searched for its
first member with a matching name; that name is then resolved through the
last-wins member index (a find over the reversed listing). -/
theorem read_first_csv_eq (zf : List ZipEntry) :
    read_first_csv_from_zip zf =
      match zf.find? (fun e => isCsvName e.name) with
      | some e0 =>
        (match zf.reverse.find? (fun e => e.name == e0.name) with
          | some e1 => Except.ok e1.content
          | none => Except.error ("KeyError: " ++ e0.name))
      | none => Except.error (noCsvMsg (zf.map ZipEntry.name)) := by
  unfold read_first_csv_from_zip
  have hcomp : (isCsvName ∘ ZipEntry.name) = (fun e : ZipEntry => isCsvName e.name) := rfl
  have hfm : (zf.map ZipEntry.name).filter isCsvName
      = (zf.filter (fun e => isCsvName e.name)).map ZipEntry.name := by
    rw [List.filter_map, hcomp]
  have hfind : zf.find? (fun e => isCsvName e.name)
      = (zf.filter (fun e => isCsvName e.name)).head? :=
    find?_eq_head_filter _ _
  cases hf : zf.filter (fun e => isCsvName e.name) with
  | nil =>
    rw [hf] at hfind
    simp only [hfm, hf, List.map_nil, hfind, List.head?_nil]
  | cons e0 rest =>
    rw [hf] at hfind
    simp only [List.head?_cons] at hfind
    simp only [hfm, hf, List.map_cons, hfind]
/-! ## Claim theorems -/

/-- C8: column-label normalization (stripping surrounding whitespace from
every column label, as `csv_bytes_to_dataframe` performs it) is idempotent:
applying the strip pass twice yields the same labels as applying it once,
and a parsed table is unchanged by a further strip pass. -/
theorem strip_normalization_idempotent (labels : List String) (csv_bytes : String) :
    (labels.map pyStrip).map pyStrip = labels.map pyStrip ∧
    stripColumns (csv_bytes_to_dataframe csv_bytes) = csv_bytes_to_dataframe csv_bytes := by
  constructor
  · rw [List.map_map]
    exact List.map_congr_left (fun a _ => pyStrip_idem a)
  · unfold csv_bytes_to_dataframe
    exact stripColumns_idem _

/-- C1: on the daily table `Date,USD / 2020-01-01,1.2` and the historical
table `Date,USD / 2020-01-01,1.0 / 2020-01-02, / 2020-01-03,3.0` with
currency set `["USD"]`, the pipeline yields exactly one `ExchangeRow` for
`USD` whose rate renders as `1.200000` and whose historical mean renders as
`2.000000`. -/
theorem pipeline_usd_scenario :
    run_pipeline "Date,USD\n2020-01-01,1.2"
        "Date,USD\n2020-01-01,1.0\n2020-01-02,\n2020-01-03,3.0" ["USD"] =
      Except.ok [{ currency_code := "USD", rate := PyFloat.num (6 / 5),
                   mean_historical_rate := PyFloat.num 2 }] ∧
    formatFixed6 (PyFloat.num (6 / 5)) = "1.200000" ∧
    formatFixed6 (PyFloat.num 2) = "2.000000" := by
  with_unfolding_all decide

/-- C10: there is a daily table in which a requested code is a column label
but the last row's cell under it is textual; `extract_latest_rates` then
fails with the float-conversion `ValueError`, a failure mode distinct from
the missing-column error. -/
theorem latest_rate_conversion_error :
    (DataFrame.mk ["Date", "USD"] [["2020-01-01", "abc"]]).colIndex "USD" = some 1 ∧
    extract_latest_rates (DataFrame.mk ["Date", "USD"] [["2020-01-01", "abc"]]) ["USD"]
      = Except.error (floatConvMsg "abc") ∧
    floatConvMsg "abc" ≠ missingLatestMsg "USD" ["Date", "USD"] := by
  with_unfolding_all decide

/-- C3: whenever `extract_latest_rates` succeeds, every requested code is
mapped to the value of the table's last row in that code's column, coerced
to floating point; and the result is unchanged by replacing the other rows
(only the last row is used), whatever the row count. -/
theorem extract_latest_rates_last_row (df df2 : DataFrame)
    (currencies : List String) (cur : String) (rates : List (String × PyFloat))
    (hok : extract_latest_rates df currencies = Except.ok rates)
    (hcur : cur ∈ currencies)
    (hcols : df2.columns = df.columns)
    (hlast : df2.rows.getLast? = df.rows.getLast?) :
    (∃ lastRow i v, df.rows.getLast? = some lastRow ∧
        df.colIndex cur = some i ∧
        coerceCellToFloat (lastRow.getD i "") = Except.ok v ∧
        dictLookup rates cur = some v) ∧
      extract_latest_rates df2 currencies = Except.ok rates := by
  unfold extract_latest_rates at hok ⊢
  cases hl : df.rows.getLast? with
  | none => rw [hl] at hok; cases hok
  | some lastRow =>
    rw [hl] at hok
    replace hok : buildRates (latestStep df lastRow) currencies [] = Except.ok rates := hok
    constructor
    · obtain ⟨v, hstep, hlook⟩ := buildRates_lookup_of_mem _ _ _ _ hok cur hcur
      unfold latestStep at hstep
      cases hci : df.colIndex cur with
      | none => rw [hci] at hstep; cases hstep
      | some i =>
        rw [hci] at hstep
        exact ⟨lastRow, i, v, rfl, rfl, hstep, hlook⟩
    · rw [hlast, hl]
      show buildRates (latestStep df2 lastRow) currencies [] = Except.ok rates
      rw [buildRates_congr (latestStep df2 lastRow) (latestStep df lastRow) currencies []
            (fun c _ => by simp only [latestStep, DataFrame.colIndex, hcols])]
      exact hok

/-- Witness for C3 at a concrete two-row table: the value comes from the
last row, and a one-row table with the same last row gives the same result. -/
theorem extract_latest_rates_last_row_witness :
    (∃ lastRow i v,
        (DataFrame.mk ["Date", "USD"]
            [["2020-01-01", "9.9"], ["2020-01-02", "1.5"]]).rows.getLast? = some lastRow ∧
        (DataFrame.mk ["Date", "USD"]
            [["2020-01-01", "9.9"], ["2020-01-02", "1.5"]]).colIndex "USD" = some i ∧
        coerceCellToFloat (lastRow.getD i "") = Except.ok v ∧
        dictLookup [("USD", PyFloat.num (3 / 2))] "USD" = some v) ∧
      extract_latest_rates (DataFrame.mk ["Date", "USD"] [["2020-01-02", "1.5"]]) ["USD"]
        = Except.ok [("USD", PyFloat.num (3 / 2))] :=
  extract_latest_rates_last_row
    (DataFrame.mk ["Date", "USD"] [["2020-01-01", "9.9"], ["2020-01-02", "1.5"]])
    (DataFrame.mk ["Date", "USD"] [["2020-01-02", "1.5"]])
    ["USD"] "USD" [("USD", PyFloat.num (3 / 2))]
    (by with_unfolding_all decide) (by decide) rfl rfl

/-- C5 counterexample: on a table with no data rows, a missing requested code
makes `extract_latest_rates` fail with the positional-indexer `IndexError`
message of `iloc[-1]`, not the missing-column message the claim promises for
every table. -/
theorem missing_column_empty_table_counterexample :
    "USD" ∉ (DataFrame.mk ["Date"] (([] : List (List String)))).columns ∧
    extract_latest_rates (DataFrame.mk ["Date"] []) ["USD"] = Except.error indexErrMsg ∧
    indexErrMsg ≠ missingLatestMsg "USD" ["Date"] := by
  with_unfolding_all decide

/-- In `extract_average_history_rates`, a missing requested column makes the
loop fail at the first such code, with the message naming that code and the
full column list. -/
theorem buildRates_hist_first_missing (df : DataFrame) (cs : List String)
    (h : ∃ c ∈ cs, df.colIndex c = none) (d : List (String × PyFloat)) :
    ∃ c0, cs.find? (fun c => (df.colIndex c).isNone) = some c0 ∧
      df.colIndex c0 = none ∧
      buildRates (histStep df) cs d = Except.error (missingHistMsg c0 df.columns) := by
  induction cs generalizing d with
  | nil =>
    obtain ⟨c, hc, _⟩ := h
    cases hc
  | cons c rest ih =>
    by_cases hc : df.colIndex c = none
    · refine ⟨c, ?_, hc, ?_⟩
      · have hb : ((df.colIndex c).isNone : Bool) = true := by simp [hc]
        simp [List.find?_cons, hb]
      · simp only [buildRates, histStep, hc]
    · cases hci : df.colIndex c with
      | none => exact absurd hci hc
      | some i =>
        have hrest : ∃ c ∈ rest, df.colIndex c = none := by
          obtain ⟨c1, hc1, hn⟩ := h
          rcases List.mem_cons.mp hc1 with rfl | hr
          · exact absurd hn hc
          · exact ⟨c1, hr, hn⟩
        obtain ⟨c0, hfind, hc0, hbr⟩ :=
          ih hrest (dictInsert d c (pyMean ((df.colStrings i).filterMap pyFloatOfString)))
        refine ⟨c0, ?_, hc0, ?_⟩
        · have hb : ((df.colIndex c).isNone : Bool) = false := by simp [hci]
          simp [List.find?_cons, hb, hfind]
        · simp only [buildRates, histStep, hci]
          exact hbr

/-- In `extract_latest_rates`, after the loop has processed earlier codes
that are present with coercible last-row cells, it fails at a missing code
with the missing-column message naming it. -/
theorem buildRates_latest_skip (df : DataFrame) (lastRow : List String)
    (pre : List String) (cur : String) (post : List String)
    (d : List (String × PyFloat))
    (hmiss : df.colIndex cur = none)
    (hpre : ∀ c ∈ pre, ∃ i v, df.colIndex c = some i ∧
      coerceCellToFloat (lastRow.getD i "") = Except.ok v) :
    buildRates (latestStep df lastRow) (pre ++ cur :: post) d
      = Except.error (missingLatestMsg cur df.columns) := by
  revert hpre
  induction pre generalizing d with
  | nil =>
    intro _
    simp only [List.nil_append, buildRates, latestStep, hmiss]
  | cons c pre1 ih =>
    intro hpre
    obtain ⟨i, v, hi, hv⟩ := hpre c (List.mem_cons_self _ _)
    simp only [List.cons_append, buildRates, latestStep, hi, hv]
    exact ih (dictInsert d c v) (fun c1 hc1 => hpre c1 (List.mem_cons_of_mem _ hc1))

/-- C5 (amended): for every table and requested code that is not a column
label — `extract_average_history_rates` fails with the missing-column error
naming the first missing requested code and the full column list; and
`extract_latest_rates`, provided the table has at least one data row and the
codes requested before the missing one are present with coercible last-row
cells, fails with the missing-column error naming that code and the full
column list (a zero-row table fails earlier with the index error of
`iloc[-1]`, and an earlier non-coercible cell raises the conversion error
first). -/
theorem missing_column_raises (df : DataFrame) (cur : String)
    (pre post currencies : List String)
    (hmiss : df.colIndex cur = none) :
    (∀ lastRow, df.rows.getLast? = some lastRow →
      (∀ c ∈ pre, ∃ i v, df.colIndex c = some i ∧
        coerceCellToFloat (lastRow.getD i "") = Except.ok v) →
      extract_latest_rates df (pre ++ cur :: post)
        = Except.error (missingLatestMsg cur df.columns)) ∧
    (cur ∈ currencies →
      ∃ c0, currencies.find? (fun c => (df.colIndex c).isNone) = some c0 ∧
        df.colIndex c0 = none ∧
        extract_average_history_rates df currencies
          = Except.error (missingHistMsg c0 df.columns)) := by
  constructor
  · intro lastRow hlr hpre
    unfold extract_latest_rates
    rw [hlr]
    show buildRates (latestStep df lastRow) (pre ++ cur :: post) [] = _
    exact buildRates_latest_skip df lastRow pre cur post [] hmiss hpre
  · intro hcur
    exact buildRates_hist_first_missing df currencies ⟨cur, hcur, hmiss⟩ []

/-- Witness for C5 (amended): `USD` present with a coercible last-row cell,
`ZZZ` requested after it and missing — both extractors fail with the
missing-column error naming `ZZZ`. -/
theorem missing_column_raises_witness :
    extract_latest_rates (DataFrame.mk ["Date", "USD"] [["2020-01-01", "1.1"]])
        ["USD", "ZZZ"]
      = Except.error (missingLatestMsg "ZZZ" ["Date", "USD"]) ∧
    extract_average_history_rates (DataFrame.mk ["Date", "USD"] [["2020-01-01", "1.1"]])
        ["USD", "ZZZ"]
      = Except.error (missingHistMsg "ZZZ" ["Date", "USD"]) := by
  have h := missing_column_raises (DataFrame.mk ["Date", "USD"] [["2020-01-01", "1.1"]])
    "ZZZ" ["USD"] [] ["USD", "ZZZ"] (by with_unfolding_all decide)
  constructor
  · exact h.1 ["2020-01-01", "1.1"] rfl
      (fun c hc => by
        have hcu : c = "USD" := by simpa using hc
        subst hcu
        exact ⟨1, PyFloat.num (11 / 10), by with_unfolding_all decide,
          by with_unfolding_all decide⟩)
  · obtain ⟨c0, hfind, hc0, hres⟩ := h.2 (by decide)
    have heval : (["USD", "ZZZ"].find? (fun c =>
        ((DataFrame.mk ["Date", "USD"] [["2020-01-01", "1.1"]]).colIndex c).isNone))
        = some "ZZZ" := by with_unfolding_all decide
    rw [heval] at hfind
    injection hfind with hfind1
    rw [← hfind1] at hres
    exact hres

/-- C2: when every requested code is a column label,
`extract_average_history_rates` succeeds and maps each code to the mean of
exactly the cells of its column that coerce to a number (`filterMap`), the
empty and non-numeric cells entering neither the sum nor the count; when at
least one cell coerces, that mean is their sum divided by their number. -/
theorem extract_average_history_rates_mean (hist_df : DataFrame)
    (currencies : List String) (cur : String)
    (hall : ∀ c ∈ currencies, (hist_df.colIndex c).isSome)
    (hcur : cur ∈ currencies) :
    ∃ means, extract_average_history_rates hist_df currencies = Except.ok means ∧
      ∀ i, hist_df.colIndex cur = some i →
        dictLookup means cur
            = some (pyMean ((hist_df.colStrings i).filterMap pyFloatOfString)) ∧
          ((hist_df.colStrings i).filterMap pyFloatOfString ≠ [] →
            pyMean ((hist_df.colStrings i).filterMap pyFloatOfString)
              = PyFloat.num (((hist_df.colStrings i).filterMap pyFloatOfString).sum
                  / (((hist_df.colStrings i).filterMap pyFloatOfString).length : ℚ))) := by
  have htot : ∀ c ∈ currencies, ∃ v, histStep hist_df c = Except.ok v := by
    intro c hc
    obtain ⟨i, hi⟩ := Option.isSome_iff_exists.mp (hall c hc)
    exact ⟨pyMean ((hist_df.colStrings i).filterMap pyFloatOfString),
      by simp only [histStep, hi]⟩
  obtain ⟨means, hm⟩ := buildRates_total _ _ [] htot
  refine ⟨means, hm, ?_⟩
  intro i hi
  obtain ⟨v, hstep, hlook⟩ := buildRates_lookup_of_mem _ _ _ _ hm cur hcur
  simp only [histStep, hi] at hstep
  injection hstep with hv
  constructor
  · rw [hlook, hv]
  · intro hne
    have hb : ((hist_df.colStrings i).filterMap pyFloatOfString).isEmpty = false :=
      List.isEmpty_eq_false.mpr hne
    simp [pyMean, hb]

/-- Witness for C2 at the spec's example column `[1.0, "", 3.0]`: the mean is
2, the empty cell entering neither sum nor count. -/
theorem extract_average_history_rates_mean_witness :
    ∃ means, extract_average_history_rates
        (DataFrame.mk ["Date", "USD"]
          [["2020-01-01", "1.0"], ["2020-01-02", ""], ["2020-01-03", "3.0"]]) ["USD"]
        = Except.ok means ∧
      ∀ i, (DataFrame.mk ["Date", "USD"]
          [["2020-01-01", "1.0"], ["2020-01-02", ""], ["2020-01-03", "3.0"]]).colIndex "USD"
          = some i →
        dictLookup means "USD"
            = some (pyMean (((DataFrame.mk ["Date", "USD"]
              [["2020-01-01", "1.0"], ["2020-01-02", ""], ["2020-01-03", "3.0"]]).colStrings i).filterMap
                pyFloatOfString)) ∧
          (((DataFrame.mk ["Date", "USD"]
              [["2020-01-01", "1.0"], ["2020-01-02", ""], ["2020-01-03", "3.0"]]).colStrings i).filterMap
                pyFloatOfString ≠ [] →
            pyMean (((DataFrame.mk ["Date", "USD"]
              [["2020-01-01", "1.0"], ["2020-01-02", ""], ["2020-01-03", "3.0"]]).colStrings i).filterMap
                pyFloatOfString)
              = PyFloat.num ((((DataFrame.mk ["Date", "USD"]
                  [["2020-01-01", "1.0"], ["2020-01-02", ""], ["2020-01-03", "3.0"]]).colStrings i).filterMap
                    pyFloatOfString).sum
                  / ((((DataFrame.mk ["Date", "USD"]
                  [["2020-01-01", "1.0"], ["2020-01-02", ""], ["2020-01-03", "3.0"]]).colStrings i).filterMap
                    pyFloatOfString).length : ℚ))) :=
  extract_average_history_rates_mean
    (DataFrame.mk ["Date", "USD"]
      [["2020-01-01", "1.0"], ["2020-01-02", ""], ["2020-01-03", "3.0"]])
    ["USD"] "USD" (by with_unfolding_all decide) (by decide)

/-- C9: when a requested code's column exists but no cell of it coerces to a
number, `extract_average_history_rates` does not raise: it succeeds and maps
the code to the NaN mean. -/
theorem extract_average_history_rates_all_nonnumeric (hist_df : DataFrame)
    (currencies : List String) (cur : String) (i : ℕ)
    (hall : ∀ c ∈ currencies, (hist_df.colIndex c).isSome)
    (hcur : cur ∈ currencies)
    (hi : hist_df.colIndex cur = some i)
    (hempty : (hist_df.colStrings i).filterMap pyFloatOfString = []) :
    ∃ means, extract_average_history_rates hist_df currencies = Except.ok means ∧
      dictLookup means cur = some PyFloat.nan := by
  obtain ⟨means, hm, hspec⟩ :=
    extract_average_history_rates_mean hist_df currencies cur hall hcur
  refine ⟨means, hm, ?_⟩
  obtain ⟨hlook, _⟩ := hspec i hi
  rw [hlook, hempty]
  rfl

/-- Witness for C9 at a table whose `USD` column holds only empty and textual
cells. -/
theorem extract_average_history_rates_all_nonnumeric_witness :
    ∃ means, extract_average_history_rates
        (DataFrame.mk ["Date", "USD"] [["2020-01-01", ""], ["2020-01-02", "N/A"]]) ["USD"]
        = Except.ok means ∧
      dictLookup means "USD" = some PyFloat.nan :=
  extract_average_history_rates_all_nonnumeric
    (DataFrame.mk ["Date", "USD"] [["2020-01-01", ""], ["2020-01-02", "N/A"]])
    ["USD"] "USD" 1 (by with_unfolding_all decide) (by decide)
    (by with_unfolding_all decide) (by with_unfolding_all decide)

/-- Successful row building: one row per code, in request order, pairing the
two lookups. -/
theorem build_output_rows_spec (latest historical : List (String × PyFloat))
    (cs : List String)
    (h : ∀ c ∈ cs, (dictLookup latest c).isSome ∧ (dictLookup historical c).isSome) :
    ∃ rows, build_output_rows latest historical cs = Except.ok rows ∧
      rows.map ExchangeRow.currency_code = cs ∧
      ∀ r ∈ rows, dictLookup latest r.currency_code = some r.rate ∧
        dictLookup historical r.currency_code = some r.mean_historical_rate := by
  induction cs with
  | nil => exact ⟨[], rfl, rfl, by simp⟩
  | cons c rest ih =>
    obtain ⟨r0, hr0⟩ := Option.isSome_iff_exists.mp (h c (List.mem_cons_self _ _)).1
    obtain ⟨m0, hm0⟩ := Option.isSome_iff_exists.mp (h c (List.mem_cons_self _ _)).2
    obtain ⟨rows, hrows, hmap, hpair⟩ := ih (fun c1 hc1 => h c1 (List.mem_cons_of_mem _ hc1))
    refine ⟨ExchangeRow.mk c r0 m0 :: rows, ?_, ?_, ?_⟩
    · simp only [build_output_rows, hr0, hm0, hrows]
    · simp [hmap]
    · intro r hr
      rcases List.mem_cons.mp hr with rfl | hmem
      · exact ⟨hr0, hm0⟩
      · exact hpair r hmem

/-- Row building only looks the codes up: two pairs of mappings with the same
lookup behavior produce identical results. -/
theorem build_output_rows_congr (latest historical latest2 historical2 : List (String × PyFloat))
    (cs : List String)
    (h1 : ∀ c, dictLookup latest2 c = dictLookup latest c)
    (h2 : ∀ c, dictLookup historical2 c = dictLookup historical c) :
    build_output_rows latest2 historical2 cs = build_output_rows latest historical cs := by
  induction cs with
  | nil => rfl
  | cons c rest ih => simp only [build_output_rows, h1 c, h2 c, ih]

/-- C6: when every requested code is present in both mappings,
`build_output_rows` returns exactly one `ExchangeRow` per code, in exactly
the caller-supplied order, pairing each code's latest rate with its
historical mean — and the result depends on the mappings only through their
lookups, not their insertion order. -/
theorem build_output_rows_order (latest historical : List (String × PyFloat))
    (currencies : List String)
    (h : ∀ c ∈ currencies, (dictLookup latest c).isSome ∧ (dictLookup historical c).isSome) :
    ∃ rows, build_output_rows latest historical currencies = Except.ok rows ∧
      rows.map ExchangeRow.currency_code = currencies ∧
      (∀ r ∈ rows, dictLookup latest r.currency_code = some r.rate ∧
        dictLookup historical r.currency_code = some r.mean_historical_rate) ∧
      ∀ latest2 historical2,
        (∀ c, dictLookup latest2 c = dictLookup latest c) →
        (∀ c, dictLookup historical2 c = dictLookup historical c) →
        build_output_rows latest2 historical2 currencies
          = build_output_rows latest historical currencies := by
  obtain ⟨rows, hrows, hmap, hpair⟩ := build_output_rows_spec latest historical currencies h
  exact ⟨rows, hrows, hmap, hpair,
    fun latest2 historical2 h1 h2 =>
      build_output_rows_congr latest historical latest2 historical2 currencies h1 h2⟩

/-- Witness for C6 at the spec's order `["USD", "SEK", "GBP", "JPY"]` with
mappings whose insertion order differs from the requested order. -/
theorem build_output_rows_order_witness :
    ∃ rows, build_output_rows
        [("JPY", PyFloat.num 120), ("USD", PyFloat.num (11 / 10)),
         ("GBP", PyFloat.num (4 / 5)), ("SEK", PyFloat.num 10)]
        [("SEK", PyFloat.num (19 / 2)), ("GBP", PyFloat.num (17 / 20)),
         ("JPY", PyFloat.num 110), ("USD", PyFloat.num (6 / 5))]
        ["USD", "SEK", "GBP", "JPY"] = Except.ok rows ∧
      rows.map ExchangeRow.currency_code = ["USD", "SEK", "GBP", "JPY"] ∧
      (∀ r ∈ rows,
        dictLookup [("JPY", PyFloat.num 120), ("USD", PyFloat.num (11 / 10)),
         ("GBP", PyFloat.num (4 / 5)), ("SEK", PyFloat.num 10)] r.currency_code
            = some r.rate ∧
        dictLookup [("SEK", PyFloat.num (19 / 2)), ("GBP", PyFloat.num (17 / 20)),
         ("JPY", PyFloat.num 110), ("USD", PyFloat.num (6 / 5))] r.currency_code
            = some r.mean_historical_rate) ∧
      ∀ latest2 historical2,
        (∀ c, dictLookup latest2 c
            = dictLookup [("JPY", PyFloat.num 120), ("USD", PyFloat.num (11 / 10)),
              ("GBP", PyFloat.num (4 / 5)), ("SEK", PyFloat.num 10)] c) →
        (∀ c, dictLookup historical2 c
            = dictLookup [("SEK", PyFloat.num (19 / 2)), ("GBP", PyFloat.num (17 / 20)),
              ("JPY", PyFloat.num 110), ("USD", PyFloat.num (6 / 5))] c) →
        build_output_rows latest2 historical2 ["USD", "SEK", "GBP", "JPY"]
          = build_output_rows
              [("JPY", PyFloat.num 120), ("USD", PyFloat.num (11 / 10)),
               ("GBP", PyFloat.num (4 / 5)), ("SEK", PyFloat.num 10)]
              [("SEK", PyFloat.num (19 / 2)), ("GBP", PyFloat.num (17 / 20)),
               ("JPY", PyFloat.num 110), ("USD", PyFloat.num (6 / 5))]
              ["USD", "SEK", "GBP", "JPY"] :=
  build_output_rows_order
    [("JPY", PyFloat.num 120), ("USD", PyFloat.num (11 / 10)),
     ("GBP", PyFloat.num (4 / 5)), ("SEK", PyFloat.num 10)]
    [("SEK", PyFloat.num (19 / 2)), ("GBP", PyFloat.num (17 / 20)),
     ("JPY", PyFloat.num 110), ("USD", PyFloat.num (6 / 5))]
    ["USD", "SEK", "GBP", "JPY"] (by with_unfolding_all decide)

/-- Every character produced for the fractional part is a decimal digit. -/
theorem digitChar10_isDigit (n : ℕ) : (digitChar10 n).isDigit = true := by
  unfold digitChar10
  have h : n % 10 < 10 := Nat.mod_lt _ (by norm_num)
  generalize n % 10 = m at h
  interval_cases m <;> decide

/-- The fractional part of the `.6f` rendering has exactly six characters. -/
theorem frac6_length (n : ℕ) : (frac6 n).length = 6 := rfl

theorem frac6_all_digits (n : ℕ) : (frac6 n).all Char.isDigit = true := by
  simp [frac6, digitChar10_isDigit]

/-- The `.6f` rendering of any numeric value has exactly six digits after
the decimal point. -/
theorem formatFixed6_hasSixDecimals (q : ℚ) :
    hasSixDecimals (formatFixed6 (PyFloat.num q)) :=
  ⟨(if roundHalfEvenScaled (q * 1000000) < 0 then "-" else "")
      ++ toString ((roundHalfEvenScaled (q * 1000000)).natAbs / 1000000),
    frac6 ((roundHalfEvenScaled (q * 1000000)).natAbs % 1000000),
    rfl, rfl, frac6_all_digits _⟩

/-- C7: for every non-empty row list, `write_markdown_table` writes the
rendered table followed by a trailing newline, replacing any previous file
content; the rendered table has the header `Currency Code / Rate / Mean
Historical Rate` and one line per row whose two numeric cells are the `.6f`
renderings; every such rendering carries exactly six digits after the
decimal point. -/
theorem write_markdown_table_spec (rows : List ExchangeRow) (old1 old2 : Option String)
    (hne : rows ≠ []) :
    write_markdown_table rows old1 = Except.ok (some (to_markdown rows ++ "\n")) ∧
    write_markdown_table rows old1 = write_markdown_table rows old2 ∧
    to_markdown rows = String.intercalate "\n"
      (renderRow ["Currency Code", "Rate", "Mean Historical Rate"] ::
       renderRow (["Currency Code", "Rate", "Mean Historical Rate"].map (fun _ => "---")) ::
       rows.map (fun r => renderRow
         [r.currency_code, formatFixed6 r.rate, formatFixed6 r.mean_historical_rate])) ∧
    (∀ q, hasSixDecimals (formatFixed6 (PyFloat.num q))) := by
  have hni : rows.isEmpty = false := by
    cases rows with
    | nil => exact absurd rfl hne
    | cons r t => rfl
  refine ⟨?_, ?_, rfl, fun q => formatFixed6_hasSixDecimals q⟩
  · simp [write_markdown_table, hni]
  · simp [write_markdown_table, hni]

/-- Witness for C7 on the single row `USD, 1.1, 2.0` (whose rate renders as
`1.100000`), with two different previous file contents. -/
theorem write_markdown_table_spec_witness :
    (write_markdown_table [ExchangeRow.mk "USD" (PyFloat.num (11 / 10)) (PyFloat.num 2)] none
        = Except.ok (some (to_markdown
            [ExchangeRow.mk "USD" (PyFloat.num (11 / 10)) (PyFloat.num 2)] ++ "\n")) ∧
      write_markdown_table [ExchangeRow.mk "USD" (PyFloat.num (11 / 10)) (PyFloat.num 2)] none
        = write_markdown_table [ExchangeRow.mk "USD" (PyFloat.num (11 / 10)) (PyFloat.num 2)]
            (some "stale content") ∧
      to_markdown [ExchangeRow.mk "USD" (PyFloat.num (11 / 10)) (PyFloat.num 2)]
        = String.intercalate "\n"
          (renderRow ["Currency Code", "Rate", "Mean Historical Rate"] ::
           renderRow (["Currency Code", "Rate", "Mean Historical Rate"].map (fun _ => "---")) ::
           [ExchangeRow.mk "USD" (PyFloat.num (11 / 10)) (PyFloat.num 2)].map (fun r => renderRow
             [r.currency_code, formatFixed6 r.rate, formatFixed6 r.mean_historical_rate])) ∧
      (∀ q, hasSixDecimals (formatFixed6 (PyFloat.num q)))) ∧
    formatFixed6 (PyFloat.num (11 / 10)) = "1.100000" :=
  ⟨write_markdown_table_spec [ExchangeRow.mk "USD" (PyFloat.num (11 / 10)) (PyFloat.num 2)]
      none (some "stale content") (List.cons_ne_nil _ _),
   by with_unfolding_all decide⟩

/-- C4 counterexample: on an archive with duplicate member names the program
returns the bytes of the *last* member bearing the first matching name
(`zipfile`'s name index is last-wins), not the first matching member's own
bytes. -/
theorem read_first_csv_duplicate_name_counterexample :
    ([ZipEntry.mk "a.csv" "X", ZipEntry.mk "b.csv" "Y",
        ZipEntry.mk "a.csv" "Z"].find? (fun e => isCsvName e.name)
      = some (ZipEntry.mk "a.csv" "X")) ∧
    read_first_csv_from_zip
        [ZipEntry.mk "a.csv" "X", ZipEntry.mk "b.csv" "Y", ZipEntry.mk "a.csv" "Z"]
      = Except.ok "Z" ∧
    ("Z" : String) ≠ "X" := by
  decide

/-- C4 (amended): for every archive, if no member name case-insensitively
ends in `.csv`, extraction fails with the error naming the archive's full
member list; otherwise the program selects the *name* of the first matching
member in listing order but reads it through the archive's last-wins name
index, returning the decompressed bytes of the last member bearing that name
— which are exactly the first matching member's bytes whenever the archive's
member names are distinct. -/
theorem read_first_csv_from_zip_selection (zf : List ZipEntry) :
    (zf.find? (fun e => isCsvName e.name) = none →
      read_first_csv_from_zip zf = Except.error (noCsvMsg (zf.map ZipEntry.name))) ∧
    (∀ e0, zf.find? (fun e => isCsvName e.name) = some e0 →
      ∃ e1, zf.reverse.find? (fun e => e.name == e0.name) = some e1 ∧
        e1 ∈ zf ∧ e1.name = e0.name ∧
        read_first_csv_from_zip zf = Except.ok e1.content) ∧
    ((zf.map ZipEntry.name).Nodup →
      ∀ e0, zf.find? (fun e => isCsvName e.name) = some e0 →
        read_first_csv_from_zip zf = Except.ok e0.content) := by
  have hchar := read_first_csv_eq zf
  have hsecond : ∀ e0, zf.find? (fun e => isCsvName e.name) = some e0 →
      ∃ e1, zf.reverse.find? (fun e => e.name == e0.name) = some e1 ∧
        e1 ∈ zf ∧ e1.name = e0.name ∧
        read_first_csv_from_zip zf = Except.ok e1.content := by
    intro e0 hfind
    have he0 : e0 ∈ zf := List.mem_of_find?_eq_some hfind
    have hsome : (zf.reverse.find? (fun e => e.name == e0.name)).isSome := by
      rw [List.find?_isSome]
      exact ⟨e0, List.mem_reverse.mpr he0, by simp⟩
    obtain ⟨e1, he1⟩ := Option.isSome_iff_exists.mp hsome
    have hname := List.find?_some he1
    simp only [beq_iff_eq] at hname
    refine ⟨e1, he1, List.mem_reverse.mp (List.mem_of_find?_eq_some he1), hname, ?_⟩
    rw [hchar, hfind]
    show (match zf.reverse.find? (fun e => e.name == e0.name) with
      | some e1 => Except.ok e1.content
      | none => Except.error ("KeyError: " ++ e0.name)) = Except.ok e1.content
    rw [he1]
  refine ⟨?_, hsecond, ?_⟩
  · intro hnone
    rw [hchar, hnone]
  · intro hnodup e0 hfind
    obtain ⟨e1, he1, hmem, hname, hres⟩ := hsecond e0 hfind
    have he0mem : e0 ∈ zf := List.mem_of_find?_eq_some hfind
    have heq : e1 = e0 := List.inj_on_of_nodup_map hnodup hmem he0mem hname
    rw [← heq]
    exact hres

/-- Witness for C4 (amended) on an archive with distinct member names: the
first matching member is `data.CSV` and its bytes are returned. -/
theorem read_first_csv_from_zip_selection_witness :
    read_first_csv_from_zip
        [ZipEntry.mk "readme.txt" "hi", ZipEntry.mk "data.CSV" "a,b",
         ZipEntry.mk "other.csv" "x"]
      = Except.ok "a,b" :=
  (read_first_csv_from_zip_selection
      [ZipEntry.mk "readme.txt" "hi", ZipEntry.mk "data.CSV" "a,b",
       ZipEntry.mk "other.csv" "x"]).2.2
    (by decide) (ZipEntry.mk "data.CSV" "a,b") (by decide)
